import Mathlib

/-!
Verification development for the ConsultEase faculty desk unit
(`faculty_desk_unit` sources).  The configuration constants are embedded
from `config.h`; the security, memory-monitor and string-handler code is
embedded from the `optimizations` implementation files.  The message queue
and the presence state machine are only declared in the headers shipped
here, so those components are modelled from the design document
(`spec.md`) sections 4.1 - 4.3 and checked against it.
-/

namespace ConsultEase

/-! ## Configuration constants, embedded from `config.h` -/

def BLE_GRACE_PERIOD_MS : Nat := 60000

def BLE_RECONNECT_ATTEMPT_INTERVAL : Nat := 5000

def BLE_RECONNECT_MAX_ATTEMPTS : Nat := 12

def BLE_FAST_RECONNECT_INTERVAL : Nat := 2000

def PRESENCE_CONFIRM_TIME : Nat := 6000

def ABSENCE_CONFIRM_TIME : Nat := 15000

def MAX_QUEUED_MESSAGES : Nat := 20

def MESSAGE_RETRY_ATTEMPTS : Nat := 3

def MESSAGE_EXPIRY_TIME : Nat := 300000

def MAX_MESSAGE_LENGTH : Nat := 512

def MAX_KEY_LENGTH : Nat := 32

/-! ## EncryptionManager, embedded from `security_enhancements.cpp`

`EncryptionManager::encryptData` (lines 93-109) xors each plaintext byte
with `useKey[i % MAX_KEY_LENGTH]` and fails (returns `false`) when
`keyInitialized` is unset; `decryptData` (lines 111-116) is literally a
call to `encryptData`.  Bytes are modelled as naturals, the 32-byte key
as a function read at index `i % MAX_KEY_LENGTH`. -/

def xorWithKey (key : Nat → Nat) : Nat → List Nat → List Nat
  | _, [] => []
  | i, b :: rest => (b ^^^ key (i % MAX_KEY_LENGTH)) :: xorWithKey key (i + 1) rest

def encryptData (keyInitialized : Bool) (key : Nat → Nat) (plaintext : List Nat) :
    Option (List Nat) :=
  if keyInitialized then some (xorWithKey key 0 plaintext) else none

def decryptData (keyInitialized : Bool) (key : Nat → Nat) (ciphertext : List Nat) :
    Option (List Nat) :=
  encryptData keyInitialized key ciphertext

/-! ## MemoryMonitor::handleCriticalMemory, embedded from
`memory_optimization.cpp` lines 328-347

The function warns below 10000 free bytes, performs the aggressive
emergency cleanup below 5000, and calls `ESP.restart()` when the heap
re-read after that cleanup (`heapAfterCleanup`) is still below 3000. -/

structure CriticalMemoryOutcome where
  lowWarning : Bool
  emergencyCleanup : Bool
  restarted : Bool
deriving DecidableEq, Repr

def handleCriticalMemory (currentFree heapAfterCleanup : Nat) : CriticalMemoryOutcome :=
  { lowWarning := currentFree < 10000
    emergencyCleanup := currentFree < 5000
    restarted := currentFree < 5000 && heapAfterCleanup < 3000 }

/-! ## OptimizedStringHandler, embedded from `memory_optimization.cpp`
lines 402-436 (same bodies as the header inline definitions)

The buffer is `char buffer[MAX_MESSAGE_LENGTH]`; we model the whole
address space as a function `Nat → Nat` so that a write past index
`MAX_MESSAGE_LENGTH - 1` would be visible.  `appendStr` models the
`const char*` overload (`strlen` then `strcpy`, which copies the
characters and a terminating NUL); `appendChar` models the `char`
overload (`buffer[bufferPos++] = c; buffer[bufferPos] = 0`). -/

structure OptimizedStringHandler where
  buffer : Nat → Nat
  bufferPos : Nat

def writeByte (buf : Nat → Nat) (i v : Nat) : Nat → Nat :=
  fun j => if j = i then v else buf j

def writeBytes : (Nat → Nat) → Nat → List Nat → (Nat → Nat)
  | buf, _, [] => buf
  | buf, i, c :: cs => writeBytes (writeByte buf i c) (i + 1) cs

/-- `memset(buffer, 0, MAX_MESSAGE_LENGTH)`: zeroes exactly the first
`MAX_MESSAGE_LENGTH` cells. -/
def memsetZero (buf : Nat → Nat) (n : Nat) : Nat → Nat :=
  fun j => if j < n then 0 else buf j

/-- The constructor / `reset()`: `bufferPos = 0` and the buffer zeroed. -/
def OptimizedStringHandler.reset (s : OptimizedStringHandler) : OptimizedStringHandler :=
  { buffer := memsetZero s.buffer MAX_MESSAGE_LENGTH, bufferPos := 0 }

def OptimizedStringHandler.appendChar (s : OptimizedStringHandler) (c : Nat) :
    Bool × OptimizedStringHandler :=
  if MAX_MESSAGE_LENGTH - 1 ≤ s.bufferPos then
    (false, s)
  else
    (true,
      { buffer := writeByte (writeByte s.buffer s.bufferPos c) (s.bufferPos + 1) 0
        bufferPos := s.bufferPos + 1 })

def OptimizedStringHandler.appendStr (s : OptimizedStringHandler) (str : List Nat) :
    Bool × OptimizedStringHandler :=
  if MAX_MESSAGE_LENGTH - 1 ≤ s.bufferPos + str.length then
    (false, s)
  else
    (true,
      { buffer := writeByte (writeBytes s.buffer s.bufferPos str) (s.bufferPos + str.length) 0
        bufferPos := s.bufferPos + str.length })

inductive AppendOp where
  | chr : Nat → AppendOp
  | str : List Nat → AppendOp

def applyAppend (s : OptimizedStringHandler) : AppendOp → OptimizedStringHandler
  | .chr c => (s.appendChar c).2
  | .str l => (s.appendStr l).2

def runAppends (s : OptimizedStringHandler) (ops : List AppendOp) : OptimizedStringHandler :=
  ops.foldl applyAppend s

/-- A freshly constructed handler over ambient memory `mem`. -/
def freshHandler (mem : Nat → Nat) : OptimizedStringHandler :=
  OptimizedStringHandler.reset { buffer := mem, bufferPos := 0 }

/-- The good-state invariant: the length is strictly below the buffer
size and the buffer is NUL-terminated at position `length()`. -/
def shGood (s : OptimizedStringHandler) : Prop :=
  s.bufferPos < MAX_MESSAGE_LENGTH ∧ s.buffer s.bufferPos = 0

/-! ## MessageQueue and DeliveryWorker

Modelled from the spec: the repository ships only the `MessageQueue`
class declaration (`optimizations/enhanced_messaging.h` lines 101-128);
the bodies of `addMessage`, `removeExpiredMessages` and the delivery /
retry logic are not under `src/`.  The queue is therefore modelled from
`spec.md` sections 3, 4.2 and 4.3: a capacity-bounded list of
`QueuedMessage` records ordered by `(priority descending, enqueuedAt
ascending)`, with eviction of the lowest-priority, then oldest,
`Pending`/`Failed` entry, expiry sweeping, and the worker's
retry-with-cap step. -/

inductive MessageKind where
  | ConsultationRequest
  | SystemNotification
  | StatusUpdate
  | Heartbeat
deriving DecidableEq, Repr

inductive DeliveryStatus where
  | Pending
  | Sent
  | Acknowledged
  | Expired
  | Failed
deriving DecidableEq, Repr

structure QueuedMessage where
  id : Nat
  payload : List Nat
  kind : MessageKind
  priority : Nat
  enqueuedAt : Nat
  expiresAt : Nat
  deliveryStatus : DeliveryStatus
  retryCount : Nat
deriving DecidableEq, Repr

/-- Generic stable selection: scan the list, keeping the earliest element
satisfying `p` that no later `p`-element strictly beats (`better`). -/
def selectBest {α : Type} (p : α → Bool) (better : α → α → Bool) : List α → Option α
  | [] => none
  | m :: rest =>
    match selectBest p better rest with
    | none => if p m then some m else none
    | some b => if p m then (if better b m then some b else some m) else some b

/-- A message is eligible for delivery when it is `Pending` and not yet
past its expiry (spec 4.2: `dequeueNext` returns the highest-priority,
oldest eligible `Pending` message). -/
def eligible (now : Nat) (m : QueuedMessage) : Bool :=
  decide (m.deliveryStatus = DeliveryStatus.Pending ∧ now < m.expiresAt)

/-- `dequeueBetter m b`: `m` beats the current best `b` for delivery —
strictly higher priority, or equal priority and strictly older. -/
def dequeueBetter (m b : QueuedMessage) : Bool :=
  decide (b.priority < m.priority ∨
    (m.priority = b.priority ∧ m.enqueuedAt < b.enqueuedAt))

/-- Eviction candidates: `Pending` or `Failed` entries (spec 3). -/
def evictableB (m : QueuedMessage) : Bool :=
  decide (m.deliveryStatus = DeliveryStatus.Pending ∨
    m.deliveryStatus = DeliveryStatus.Failed)

/-- `evictBetter m b`: `m` is a better eviction victim than `b` —
strictly lower priority, or equal priority and strictly older. -/
def evictBetter (m b : QueuedMessage) : Bool :=
  decide (m.priority < b.priority ∨
    (m.priority = b.priority ∧ m.enqueuedAt < b.enqueuedAt))

def dequeueNext (now : Nat) (q : List QueuedMessage) : Option QueuedMessage :=
  selectBest (eligible now) dequeueBetter q

def selectEvict (q : List QueuedMessage) : Option QueuedMessage :=
  selectBest evictableB evictBetter q

/-- Ordered insertion maintaining `(priority descending, enqueuedAt
ascending)` (spec 4.2). -/
def insertSorted (m : QueuedMessage) : List QueuedMessage → List QueuedMessage
  | [] => [m]
  | x :: xs =>
    if x.priority < m.priority ∨ (m.priority = x.priority ∧ m.enqueuedAt < x.enqueuedAt) then
      m :: x :: xs
    else
      x :: insertSorted m xs

inductive EnqueueError where
  | QueueFull
deriving DecidableEq, Repr

/-- `enqueue` (spec 4.2): insert in order while below capacity; at
capacity, evict the lowest-priority, then oldest, `Pending`/`Failed`
entry, and report `QueueFull` only when no entry is evictable. -/
def enqueue (C : Nat) (q : List QueuedMessage) (m : QueuedMessage) :
    Except EnqueueError (List QueuedMessage) :=
  if q.length < C then Except.ok (insertSorted m q)
  else
    match selectEvict q with
    | none => Except.error EnqueueError.QueueFull
    | some v => Except.ok (insertSorted m (q.erase v))

def enqueueStep (C : Nat) (q : List QueuedMessage) (m : QueuedMessage) :
    List QueuedMessage :=
  match enqueue C q m with
  | Except.ok q2 => q2
  | Except.error _ => q

def enqueueList (C : Nat) (q : List QueuedMessage) (msgs : List QueuedMessage) :
    List QueuedMessage :=
  msgs.foldl (enqueueStep C) q

/-- `sweepExpired` (spec 4.2): every entry with `expiresAt ≤ now` is
transitioned to `Expired` and removed; the queue keeps exactly the
not-yet-expired entries. -/
def sweepExpired (now : Nat) (q : List QueuedMessage) : List QueuedMessage :=
  q.filter (fun m => decide (now < m.expiresAt))

/-- The worker's missed-acknowledgement step (spec 4.3): re-enqueue with
`retryCount += 1` at the same priority; once the count exceeds
`MaxRetryAttempts`, mark `Failed` and stop retrying. -/
def onMissedAck (maxRetry : Nat) (m : QueuedMessage) : QueuedMessage :=
  if maxRetry < m.retryCount + 1 then
    { m with retryCount := m.retryCount + 1, deliveryStatus := DeliveryStatus.Failed }
  else
    { m with retryCount := m.retryCount + 1, deliveryStatus := DeliveryStatus.Pending }

/-- The worker's retry-timer handler: a message past `expiresAt`
transitions to `Expired` before any further retry (spec 3). -/
def retryOrExpire (maxRetry now : Nat) (m : QueuedMessage) : QueuedMessage :=
  if m.expiresAt ≤ now then { m with deliveryStatus := DeliveryStatus.Expired }
  else onMissedAck maxRetry m

/-- The mutating queue operations of spec 4.2 / 4.3. -/
inductive QueueOp where
  | enq : QueuedMessage → QueueOp
  | sent : Nat → QueueOp
  | ack : Nat → QueueOp
  | fail : Nat → QueueOp
  | missedAck : Nat → Nat → Nat → QueueOp
  | sweep : Nat → QueueOp

def applyOp (C : Nat) : QueueOp → List QueuedMessage → List QueuedMessage
  | QueueOp.enq m, q => enqueueStep C q m
  | QueueOp.sent i, q => q.map fun m =>
      if m.id = i ∧ m.deliveryStatus = DeliveryStatus.Pending then
        { m with deliveryStatus := DeliveryStatus.Sent }
      else m
  | QueueOp.ack i, q => q.filter fun m => decide (m.id ≠ i)
  | QueueOp.fail i, q => q.map fun m =>
      if m.id = i then { m with deliveryStatus := DeliveryStatus.Failed } else m
  | QueueOp.missedAck i maxR now, q => q.map fun m =>
      if m.id = i ∧ m.deliveryStatus = DeliveryStatus.Sent then retryOrExpire maxR now m
      else m
  | QueueOp.sweep now, q => sweepExpired now q

/-! ## PresenceStateMachine

Modelled from the spec: the presence state machine implementation is not
under `src/` (only its configuration constants in `config.h` are); the
machine is modelled from `spec.md` section 4.1.  Inputs are scan-cycle
events `(t, sighted)` where `sighted` already folds in the
`SignalThreshold` filter.  Transitions: `Searching`/`Absent` go to
`Present` after a continuous sighting streak of `PresenceConfirmTime`;
`Present` goes to `Grace` on one missed cycle (starting a session with
`attemptCount = 0`); `Grace` resolves to `Present` on any sighting;
`Grace` expires to `Absent` when elapsed time exceeds `GracePeriod` or
`attemptCount` reaches `MaxReconnectAttempts`; and `Present`/`Grace` are
forced to `Absent` once no sighting has been observed for
`AbsenceConfirmTime` (the section 4.1 safety net).  Only transitions
entering `Present` or `Absent` publish a status. -/

inductive PresenceStatus where
  | Searching
  | Present
  | Grace
  | Absent
deriving DecidableEq, Repr

structure PresenceParams where
  presenceConfirmTime : Nat
  absenceConfirmTime : Nat
  gracePeriod : Nat
  maxReconnectAttempts : Nat
deriving DecidableEq, Repr

structure PresenceState where
  status : PresenceStatus
  streakStart : Option Nat
  lastSeen : Nat
  graceStart : Nat
  attemptCount : Nat
deriving DecidableEq, Repr

def initPresence : PresenceState :=
  { status := PresenceStatus.Searching, streakStart := none, lastSeen := 0,
    graceStart := 0, attemptCount := 0 }

def configPresenceParams : PresenceParams :=
  { presenceConfirmTime := PRESENCE_CONFIRM_TIME
    absenceConfirmTime := ABSENCE_CONFIRM_TIME
    gracePeriod := BLE_GRACE_PERIOD_MS
    maxReconnectAttempts := BLE_RECONNECT_MAX_ATTEMPTS }

def presenceStep (p : PresenceParams) (s : PresenceState) (t : Nat) (sighted : Bool) :
    PresenceState × Option PresenceStatus :=
  match s.status, sighted with
  | PresenceStatus.Searching, true =>
      let ss := s.streakStart.getD t
      if p.presenceConfirmTime ≤ t - ss then
        ({ s with status := PresenceStatus.Present, streakStart := none, lastSeen := t },
          some PresenceStatus.Present)
      else ({ s with streakStart := some ss, lastSeen := t }, none)
  | PresenceStatus.Absent, true =>
      let ss := s.streakStart.getD t
      if p.presenceConfirmTime ≤ t - ss then
        ({ s with status := PresenceStatus.Present, streakStart := none, lastSeen := t },
          some PresenceStatus.Present)
      else ({ s with streakStart := some ss, lastSeen := t }, none)
  | PresenceStatus.Searching, false => ({ s with streakStart := none }, none)
  | PresenceStatus.Absent, false => ({ s with streakStart := none }, none)
  | PresenceStatus.Present, true =>
      ({ s with lastSeen := t, streakStart := none }, none)
  | PresenceStatus.Present, false =>
      if p.absenceConfirmTime ≤ t - s.lastSeen then
        ({ s with status := PresenceStatus.Absent, streakStart := none },
          some PresenceStatus.Absent)
      else
        ({ s with status := PresenceStatus.Grace, streakStart := none, graceStart := t, attemptCount := 0 }, none)
  | PresenceStatus.Grace, true =>
      ({ s with status := PresenceStatus.Present, lastSeen := t }, none)
  | PresenceStatus.Grace, false =>
      if p.absenceConfirmTime ≤ t - s.lastSeen ∨
          p.gracePeriod < t - s.graceStart ∨
          p.maxReconnectAttempts ≤ s.attemptCount + 1 then
        ({ s with status := PresenceStatus.Absent, attemptCount := s.attemptCount + 1 }, some PresenceStatus.Absent)
      else ({ s with attemptCount := s.attemptCount + 1 }, none)

def runPresence (p : PresenceParams) :
    PresenceState → List (Nat × Bool) → PresenceState × List PresenceStatus
  | s, [] => (s, [])
  | s, (t, b) :: evs =>
      ((runPresence p (presenceStep p s t b).1 evs).1,
        (presenceStep p s t b).2.toList ++ (runPresence p (presenceStep p s t b).1 evs).2)

/-- Event times are chronological (non-decreasing from `prev`). -/
def chronFrom : Nat → List (Nat × Bool) → Bool
  | _, [] => true
  | prev, (t, _) :: evs => decide (prev ≤ t) && chronFrom t evs

/-- Every event happens within `bound` of the latest sighting so far
(`last`); events before the first sighting are unconstrained. -/
def gapsWithin (bound : Nat) : Option Nat → List (Nat × Bool) → Bool
  | _, [] => true
  | none, (t, b) :: evs => gapsWithin bound (if b then some t else none) evs
  | some last, (t, b) :: evs =>
      decide (t - last < bound) && gapsWithin bound (if b then some t else some last) evs

/-- Every run of consecutive missed scan cycles stays below `maxA`
(so the grace session's `attemptCount` stays under the cap). -/
def missRunsBelow (maxA : Nat) : Nat → List (Nat × Bool) → Bool
  | _, [] => true
  | run, (_, b) :: evs =>
      if b then missRunsBelow maxA 0 evs
      else decide (run + 1 < maxA) && missRunsBelow maxA (run + 1) evs

/-- Scan-cycle trace used against C6: confirmed present by t = 6000, then
a gap of 15000 ms — far below `GracePeriod = 60000` and with only 5
reconnect attempts, yet the section 4.1 safety net
(`AbsenceConfirmTime = 15000`) forces `Absent` at t = 21000. -/
def cexEvents : List (Nat × Bool) :=
  [(0, true), (3000, true), (6000, true), (9000, false), (12000, false),
    (15000, false), (18000, false), (21000, false)]

/-! ## Grace-period timing (C1)

Modelled from the spec: the reconnect-attempt schedule of section 4.1 /
section 8 — while in `Grace`, attempts run every
`FastReconnectInterval = 2000` ms for the first 20000 ms of the window,
then every `SlowReconnectInterval = 5000` ms; `attemptTime g k` is the
time of the k-th attempt for a session started at `g`, and the session
resolves to `Absent` at whichever bound (`GracePeriod` elapsed, or
`MaxReconnectAttempts` reached) occurs first. -/

def attemptTime (graceStart : Nat) : Nat → Nat
  | 0 => graceStart
  | n + 1 =>
      let prev := attemptTime graceStart n
      prev + (if prev - graceStart < 20000 then BLE_FAST_RECONNECT_INTERVAL
              else BLE_RECONNECT_ATTEMPT_INTERVAL)

def graceAbsentTime (graceStart : Nat) : Nat :=
  min (graceStart + BLE_GRACE_PERIOD_MS)
    (attemptTime graceStart BLE_RECONNECT_MAX_ATTEMPTS)

/-- Scan-cycle trace satisfying the amended C6 hypotheses: presence
confirmed by t = 6000, one 8000 ms gap (below `AbsenceConfirmTime`),
recovered at t = 14000. -/
def goodEvents : List (Nat × Bool) :=
  [(0, true), (3000, true), (6000, true), (10000, false), (14000, true)]

lemma xorWithKey_involutive (key : Nat → Nat) (i : Nat) (l : List Nat) :
    xorWithKey key i (xorWithKey key i l) = l := by
  induction l generalizing i with
  | nil => rfl
  | cons b rest ih =>
      simp [xorWithKey, ih, Nat.xor_assoc, Nat.xor_self]

/-- C9 counterexample: the periodic memory check does reach `ESP.restart()`:
with 2000 bytes free and 2500 bytes free after the aggressive cleanup,
`MemoryMonitor::handleCriticalMemory` restarts the device, so the claim
that no core-subsystem maintenance operation ever triggers a full device
restart is false on the code. -/
theorem C9_memcheck_restarts : (handleCriticalMemory 2000 2500).restarted = true := by
  decide

/-- C9 (amended): `handleCriticalMemory` triggers a full device restart
exactly when free heap is below 5000 bytes and the heap re-read after the
aggressive cleanup is still below 3000 bytes; in particular no restart
happens while free heap stays at or above 5000 bytes. -/
theorem C9_restart_only_critical (currentFree heapAfterCleanup : Nat) :
    ((handleCriticalMemory currentFree heapAfterCleanup).restarted = true ↔
      currentFree < 5000 ∧ heapAfterCleanup < 3000) ∧
    (5000 ≤ currentFree →
      (handleCriticalMemory currentFree heapAfterCleanup).restarted = false) := by
  constructor
  · simp [handleCriticalMemory]
  · intro h
    simp [handleCriticalMemory]
    omega

/-- Witness for C9 (amended) at a concrete healthy heap value. -/
theorem C9_restart_only_critical_witness :
    (5000 ≤ 32000 ∧ (handleCriticalMemory 32000 32000).restarted = false) :=
  ⟨by decide, (C9_restart_only_critical 32000 32000).2 (by decide)⟩

/-- C8: the stored-data "encryption" is a reversible XOR transform:
decryption is literally the same function as encryption, and for every
plaintext byte sequence and every key, decrypting the encryption under
the same key returns the original plaintext. -/
theorem C8_xor_roundtrip (key : Nat → Nat) (plaintext : List Nat) :
    (encryptData true key plaintext).bind (decryptData true key) = some plaintext ∧
    decryptData = encryptData := by
  refine ⟨?_, rfl⟩
  simp [encryptData, decryptData, xorWithKey_involutive]

lemma writeBytes_ge (str : List Nat) (buf : Nat → Nat) (i j : Nat)
    (h : ∀ k, i ≤ k → k < i + str.length → j ≠ k) :
    writeBytes buf i str j = buf j := by
  induction str generalizing buf i with
  | nil => rfl
  | cons c cs ih =>
      simp only [writeBytes]
      rw [ih]
      · have hj : j ≠ i := h i (le_refl i) (by simp)
        simp [writeByte, hj]
      · intro k hk1 hk2
        exact h k (Nat.le_of_succ_le hk1) (by simp at hk2 ⊢; omega)

lemma applyAppend_preserves (s : OptimizedStringHandler) (op : AppendOp)
    (h : shGood s) :
    shGood (applyAppend s op) ∧
      (∀ i, MAX_MESSAGE_LENGTH ≤ i → (applyAppend s op).buffer i = s.buffer i) := by
  obtain ⟨hpos, hnul⟩ := h
  cases op with
  | chr c =>
      simp only [applyAppend, OptimizedStringHandler.appendChar]
      by_cases hple : MAX_MESSAGE_LENGTH - 1 ≤ s.bufferPos
      · rw [if_pos hple]
        exact ⟨⟨hpos, hnul⟩, fun i _ => rfl⟩
      · simp only [if_neg hple]
        push_neg at hple
        refine ⟨⟨by simp [MAX_MESSAGE_LENGTH] at hple ⊢; omega, ?_⟩, ?_⟩
        · simp [writeByte]
        · intro i hi
          have h1 : i ≠ s.bufferPos + 1 := by
            simp [MAX_MESSAGE_LENGTH] at hple hi; omega
          have h2 : i ≠ s.bufferPos := by
            simp [MAX_MESSAGE_LENGTH] at hple hi; omega
          simp [writeByte, h1, h2]
  | str l =>
      simp only [applyAppend, OptimizedStringHandler.appendStr]
      by_cases hple : MAX_MESSAGE_LENGTH - 1 ≤ s.bufferPos + l.length
      · rw [if_pos hple]
        exact ⟨⟨hpos, hnul⟩, fun i _ => rfl⟩
      · simp only [if_neg hple]
        push_neg at hple
        refine ⟨⟨by simp [MAX_MESSAGE_LENGTH] at hple ⊢; omega, ?_⟩, ?_⟩
        · simp [writeByte]
        · intro i hi
          have h1 : i ≠ s.bufferPos + l.length := by
            simp [MAX_MESSAGE_LENGTH] at hple hi; omega
          simp only [writeByte, if_neg h1]
          refine writeBytes_ge l s.buffer s.bufferPos i ?_
          intro k hk1 hk2
          simp [MAX_MESSAGE_LENGTH] at hple hi
          omega

lemma runAppends_preserves (ops : List AppendOp) (s : OptimizedStringHandler)
    (h : shGood s) :
    shGood (runAppends s ops) ∧
      (∀ i, MAX_MESSAGE_LENGTH ≤ i → (runAppends s ops).buffer i = s.buffer i) := by
  induction ops generalizing s with
  | nil => exact ⟨h, fun i _ => rfl⟩
  | cons op rest ih =>
      have hstep := applyAppend_preserves s op h
      have hrest := ih (applyAppend s op) hstep.1
      refine ⟨hrest.1, fun i hi => ?_⟩
      rw [show runAppends s (op :: rest) = runAppends (applyAppend s op) rest from rfl]
      rw [hrest.2 i hi, hstep.2 i hi]

/-- C10: starting from a fresh handler, after any sequence of `append`
calls the length stays strictly below `MAX_MESSAGE_LENGTH`, the buffer is
NUL-terminated at position `length()`, no memory cell at or past index
`MAX_MESSAGE_LENGTH` is ever written, and an `append` (either overload)
that would overflow returns `false` and leaves the handler unchanged. -/
theorem C10_append_bounded (mem : Nat → Nat) (ops : List AppendOp) :
    ((runAppends (freshHandler mem) ops).bufferPos < MAX_MESSAGE_LENGTH ∧
      (runAppends (freshHandler mem) ops).buffer
        (runAppends (freshHandler mem) ops).bufferPos = 0) ∧
    (∀ i, MAX_MESSAGE_LENGTH ≤ i →
      (runAppends (freshHandler mem) ops).buffer i = mem i) ∧
    (∀ s : OptimizedStringHandler, ∀ c : Nat,
      (s.appendChar c).1 = false → (s.appendChar c).2 = s) ∧
    (∀ s : OptimizedStringHandler, ∀ l : List Nat,
      (s.appendStr l).1 = false → (s.appendStr l).2 = s) := by
  have hgood : shGood (freshHandler mem) := by
    constructor
    · simp [freshHandler, OptimizedStringHandler.reset, MAX_MESSAGE_LENGTH]
    · simp [freshHandler, OptimizedStringHandler.reset, memsetZero, MAX_MESSAGE_LENGTH]
  have hrun := runAppends_preserves ops (freshHandler mem) hgood
  refine ⟨hrun.1, fun i hi => ?_, ?_, ?_⟩
  · rw [hrun.2 i hi]
    simp only [freshHandler, OptimizedStringHandler.reset, memsetZero]
    rw [if_neg (by omega)]
  · intro s c hfail
    by_cases hple : MAX_MESSAGE_LENGTH - 1 ≤ s.bufferPos
    · simp only [OptimizedStringHandler.appendChar]
      rw [if_pos hple]
    · simp [OptimizedStringHandler.appendChar, hple] at hfail
  · intro s l hfail
    by_cases hple : MAX_MESSAGE_LENGTH - 1 ≤ s.bufferPos + l.length
    · simp only [OptimizedStringHandler.appendStr]
      rw [if_pos hple]
    · simp [OptimizedStringHandler.appendStr, hple] at hfail

/-- Witness for C10 at a concrete memory, append sequence and index. -/
theorem C10_append_bounded_witness :
    (512 ≤ 600 ∧
      (runAppends (freshHandler (fun j => j)) [AppendOp.chr 65, AppendOp.str [66, 67]]).buffer
        600 = 600) ∧
    ((OptimizedStringHandler.appendChar { buffer := fun _ => 0, bufferPos := 511 } 65).1 =
        false ∧
      (OptimizedStringHandler.appendChar { buffer := fun _ => 0, bufferPos := 511 } 65).2 =
        { buffer := fun _ => 0, bufferPos := 511 }) :=
  ⟨⟨by decide,
      (C10_append_bounded (fun j => j) [AppendOp.chr 65, AppendOp.str [66, 67]]).2.1 600
        (by decide)⟩,
    ⟨rfl,
      (C10_append_bounded (fun j => j) []).2.2.1
        { buffer := fun _ => 0, bufferPos := 511 } 65 rfl⟩⟩

/-! ### Selection lemmas -/

lemma selectBest_none_forall {α : Type} (p : α → Bool) (better : α → α → Bool) :
    ∀ l : List α, selectBest p better l = none → ∀ m ∈ l, p m = false := by
  intro l
  induction l with
  | nil => intro _ m hm; cases hm
  | cons m rest ih =>
      intro h x hx
      simp only [selectBest] at h
      cases hrest : selectBest p better rest with
      | none =>
          rw [hrest] at h
          dsimp only at h
          by_cases hp : p m
          · rw [if_pos hp] at h; cases h
          · rcases List.mem_cons.mp hx with rfl | hx2
            · simpa using hp
            · exact ih hrest x hx2
      | some b =>
          rw [hrest] at h
          dsimp only at h
          by_cases hp : p m
          · rw [if_pos hp] at h
            by_cases hb : better b m = true <;> simp [hb] at h
          · rw [if_neg hp] at h; cases h

lemma selectBest_forall_none {α : Type} (p : α → Bool) (better : α → α → Bool) :
    ∀ l : List α, (∀ m ∈ l, p m = false) → selectBest p better l = none := by
  intro l
  induction l with
  | nil => intro _; rfl
  | cons m rest ih =>
      intro h
      have hm : p m = false := h m (List.mem_cons_self m rest)
      have hrest : selectBest p better rest = none :=
        ih (fun x hx => h x (List.mem_cons_of_mem m hx))
      simp [selectBest, hrest, hm]

lemma selectBest_mem {α : Type} (p : α → Bool) (better : α → α → Bool) :
    ∀ {l : List α} {r : α}, selectBest p better l = some r → r ∈ l ∧ p r = true := by
  intro l
  induction l with
  | nil => intro r h; cases h
  | cons m rest ih =>
      intro r h
      simp only [selectBest] at h
      cases hrest : selectBest p better rest with
      | none =>
          rw [hrest] at h
          dsimp only at h
          by_cases hp : p m
          · rw [if_pos hp] at h
            cases h
            exact ⟨List.mem_cons_self m rest, hp⟩
          · rw [if_neg hp] at h; cases h
      | some b =>
          rw [hrest] at h
          dsimp only at h
          have hb := ih hrest
          by_cases hp : p m
          · rw [if_pos hp] at h
            by_cases hbm : better b m = true
            · rw [if_pos hbm] at h
              cases h
              exact ⟨List.mem_cons_of_mem m hb.1, hb.2⟩
            · rw [if_neg hbm] at h
              cases h
              exact ⟨List.mem_cons_self m rest, hp⟩
          · rw [if_neg hp] at h
            cases h
            exact ⟨List.mem_cons_of_mem m hb.1, hb.2⟩

lemma selectBest_notBetter {α : Type} (p : α → Bool) (better : α → α → Bool)
    (hirr : ∀ a, better a a = false)
    (hasym : ∀ a b, better a b = true → better b a = false)
    (hnt : ∀ a b c, better a b = false → better b c = false → better a c = false) :
    ∀ {l : List α} {r : α}, selectBest p better l = some r →
      ∀ x ∈ l, p x = true → better x r = false := by
  intro l
  induction l with
  | nil => intro r h; cases h
  | cons m rest ih =>
      intro r h x hx hpx
      simp only [selectBest] at h
      cases hrest : selectBest p better rest with
      | none =>
          rw [hrest] at h
          dsimp only at h
          by_cases hp : p m
          · rw [if_pos hp] at h
            cases h
            rcases List.mem_cons.mp hx with rfl | hx2
            · exact hirr x
            · have := selectBest_none_forall p better rest hrest x hx2
              rw [this] at hpx; cases hpx
          · rw [if_neg hp] at h; cases h
      | some b =>
          rw [hrest] at h
          dsimp only at h
          by_cases hp : p m
          · rw [if_pos hp] at h
            by_cases hbm : better b m = true
            · rw [if_pos hbm] at h
              cases h
              rcases List.mem_cons.mp hx with rfl | hx2
              · exact hasym _ _ hbm
              · exact ih hrest x hx2 hpx
            · rw [if_neg hbm] at h
              cases h
              rcases List.mem_cons.mp hx with rfl | hx2
              · exact hirr x
              · exact hnt x b m (ih hrest x hx2 hpx) (Bool.eq_false_iff.mpr hbm)
          · rw [if_neg hp] at h
            cases h
            rcases List.mem_cons.mp hx with rfl | hx2
            · rw [hpx] at hp; exact absurd rfl hp
            · exact ih hrest x hx2 hpx

lemma dequeueBetter_irrefl (a : QueuedMessage) : dequeueBetter a a = false := by
  simp only [dequeueBetter, decide_eq_false_iff_not]
  omega

lemma dequeueBetter_asymm (a b : QueuedMessage) (h : dequeueBetter a b = true) :
    dequeueBetter b a = false := by
  simp only [dequeueBetter, decide_eq_true_eq] at h
  simp only [dequeueBetter, decide_eq_false_iff_not]
  omega

lemma dequeueBetter_negtrans (a b c : QueuedMessage) (hab : dequeueBetter a b = false)
    (hbc : dequeueBetter b c = false) : dequeueBetter a c = false := by
  simp only [dequeueBetter, decide_eq_false_iff_not] at hab hbc ⊢
  omega

lemma evictBetter_irrefl (a : QueuedMessage) : evictBetter a a = false := by
  simp only [evictBetter, decide_eq_false_iff_not]
  omega

lemma evictBetter_asymm (a b : QueuedMessage) (h : evictBetter a b = true) :
    evictBetter b a = false := by
  simp only [evictBetter, decide_eq_true_eq] at h
  simp only [evictBetter, decide_eq_false_iff_not]
  omega

lemma evictBetter_negtrans (a b c : QueuedMessage) (hab : evictBetter a b = false)
    (hbc : evictBetter b c = false) : evictBetter a c = false := by
  simp only [evictBetter, decide_eq_false_iff_not] at hab hbc ⊢
  omega

lemma insertSorted_perm (m : QueuedMessage) (l : List QueuedMessage) :
    (insertSorted m l).Perm (m :: l) := by
  induction l with
  | nil => exact List.Perm.refl _
  | cons x xs ih =>
      simp only [insertSorted]
      by_cases h : x.priority < m.priority ∨ (m.priority = x.priority ∧ m.enqueuedAt < x.enqueuedAt)
      · rw [if_pos h]
      · rw [if_neg h]
        exact (ih.cons x).trans (List.Perm.swap m x xs)

lemma insertSorted_length (m : QueuedMessage) (l : List QueuedMessage) :
    (insertSorted m l).length = l.length + 1 := by
  rw [(insertSorted_perm m l).length_eq]
  rfl

lemma mem_insertSorted {a m : QueuedMessage} {l : List QueuedMessage} :
    a ∈ insertSorted m l ↔ a = m ∨ a ∈ l := by
  rw [(insertSorted_perm m l).mem_iff]
  simp

lemma enqueueStep_length (C : Nat) (q : List QueuedMessage) (m : QueuedMessage)
    (h : q.length ≤ C) : (enqueueStep C q m).length ≤ C := by
  unfold enqueueStep enqueue
  by_cases hlt : q.length < C
  · rw [if_pos hlt]
    simp only [insertSorted_length]
    omega
  · rw [if_neg hlt]
    cases hsel : selectEvict q with
    | none => exact h
    | some v =>
        have hv : v ∈ q := (selectBest_mem _ _ hsel).1
        have hlen := List.length_erase_of_mem hv
        have hpos : 0 < q.length := List.length_pos.mpr (List.ne_nil_of_mem hv)
        simp only [insertSorted_length, hlen]
        omega

lemma enqueueList_length (C : Nat) (msgs : List QueuedMessage) :
    ∀ q : List QueuedMessage, q.length ≤ C → (enqueueList C q msgs).length ≤ C := by
  induction msgs with
  | nil => intro q h; exact h
  | cons m rest ih =>
      intro q h
      exact ih (enqueueStep C q m) (enqueueStep_length C q m h)

/-- C2: starting from the empty queue, no sequence of `enqueue` calls ever
makes the queue exceed the fixed capacity `C`; and at capacity, a
successful `enqueue` keeps the size at `C` by evicting an existing
`Pending`/`Failed` entry instead of growing the queue. -/
theorem C2_capacity_never_exceeded (C : Nat) (msgs : List QueuedMessage) :
    (enqueueList C [] msgs).length ≤ C ∧
    (∀ q m q2, q.length = C → enqueue C q m = Except.ok q2 →
      q2.length = C ∧ ∃ v ∈ q, evictableB v = true ∧ q2.Perm (m :: q.erase v)) := by
  constructor
  · exact enqueueList_length C msgs [] (by simp)
  · intro q m q2 hcap hok
    unfold enqueue at hok
    rw [if_neg (by omega)] at hok
    cases hsel : selectEvict q with
    | none => rw [hsel] at hok; cases hok
    | some v =>
        rw [hsel] at hok
        cases hok
        have hv := selectBest_mem _ _ hsel
        have hlen := List.length_erase_of_mem hv.1
        have hpos : 0 < q.length := List.length_pos.mpr (List.ne_nil_of_mem hv.1)
        refine ⟨?_, v, hv.1, hv.2, insertSorted_perm m (q.erase v)⟩
        simp only [insertSorted_length, hlen]
        omega

/-- Witness for C2 at a concrete one-slot queue already at capacity. -/
theorem C2_capacity_never_exceeded_witness :
    (⟨1, [], MessageKind.StatusUpdate, 2, 0, 100, DeliveryStatus.Pending, 0⟩ ::
        ([] : List QueuedMessage)).length = 1 ∧
    ((insertSorted ⟨2, [], MessageKind.StatusUpdate, 5, 1, 100, DeliveryStatus.Pending, 0⟩
        []).length = 1 ∧
      ∃ v ∈ (⟨1, [], MessageKind.StatusUpdate, 2, 0, 100, DeliveryStatus.Pending, 0⟩ ::
          ([] : List QueuedMessage)), evictableB v = true ∧
        (insertSorted ⟨2, [], MessageKind.StatusUpdate, 5, 1, 100, DeliveryStatus.Pending, 0⟩
            []).Perm
          (⟨2, [], MessageKind.StatusUpdate, 5, 1, 100, DeliveryStatus.Pending, 0⟩ ::
            (⟨1, [], MessageKind.StatusUpdate, 2, 0, 100, DeliveryStatus.Pending, 0⟩ ::
                ([] : List QueuedMessage)).erase v)) :=
  ⟨rfl,
    (C2_capacity_never_exceeded 1 []).2
      (⟨1, [], MessageKind.StatusUpdate, 2, 0, 100, DeliveryStatus.Pending, 0⟩ :: [])
      ⟨2, [], MessageKind.StatusUpdate, 5, 1, 100, DeliveryStatus.Pending, 0⟩
      (insertSorted ⟨2, [], MessageKind.StatusUpdate, 5, 1, 100, DeliveryStatus.Pending, 0⟩ [])
      rfl rfl⟩

/-- C3: at capacity, `enqueue` reports `QueueFull` exactly when no
`Pending`/`Failed` entry is evictable; whenever some evictable entry
exists, `enqueue` succeeds and evicts the lowest-priority, then oldest,
among the `Pending`/`Failed` entries. -/
theorem C3_queuefull_only_degenerate (C : Nat) (q : List QueuedMessage)
    (m : QueuedMessage) (hcap : C ≤ q.length) :
    (enqueue C q m = Except.error EnqueueError.QueueFull ↔
      ∀ v ∈ q, evictableB v = false) ∧
    ((∃ v ∈ q, evictableB v = true) →
      ∃ q2, enqueue C q m = Except.ok q2 ∧
        ∃ v ∈ q, evictableB v = true ∧
          (∀ u ∈ q, evictableB u = true →
            v.priority ≤ u.priority ∧
              (u.priority = v.priority → v.enqueuedAt ≤ u.enqueuedAt)) ∧
          q2.Perm (m :: q.erase v)) := by
  have hnlt : ¬ q.length < C := by omega
  unfold enqueue
  rw [if_neg hnlt]
  cases hsel : selectEvict q with
  | none =>
      constructor
      · constructor
        · intro _
          exact selectBest_none_forall _ _ q hsel
        · intro _; rfl
      · rintro ⟨v, hv, hev⟩
        have := selectBest_none_forall _ _ q hsel v hv
        rw [this] at hev; cases hev
  | some v =>
      have hv := selectBest_mem _ _ hsel
      constructor
      · constructor
        · intro h; cases h
        · intro hall
          have := hall v hv.1
          rw [hv.2] at this; cases this
      · intro _
        refine ⟨insertSorted m (q.erase v), rfl, v, hv.1, hv.2, ?_, insertSorted_perm _ _⟩
        intro u hu heu
        have hnb := selectBest_notBetter evictableB evictBetter
          evictBetter_irrefl evictBetter_asymm evictBetter_negtrans hsel u hu heu
        simp only [evictBetter, decide_eq_false_iff_not] at hnb
        omega

/-- Witness for C3 at a concrete full queue holding one `Sent` entry
(degenerate `QueueFull` case) folded with one evictable `Pending` case. -/
theorem C3_queuefull_only_degenerate_witness :
    (1 ≤ (⟨1, [], MessageKind.StatusUpdate, 2, 0, 100, DeliveryStatus.Sent, 0⟩ ::
        ([] : List QueuedMessage)).length ∧
      enqueue 1 (⟨1, [], MessageKind.StatusUpdate, 2, 0, 100, DeliveryStatus.Sent, 0⟩ :: [])
          ⟨2, [], MessageKind.StatusUpdate, 5, 1, 100, DeliveryStatus.Pending, 0⟩ =
        Except.error EnqueueError.QueueFull) ∧
    (1 ≤ (⟨1, [], MessageKind.StatusUpdate, 2, 0, 100, DeliveryStatus.Pending, 0⟩ ::
        ([] : List QueuedMessage)).length ∧
      ∃ q2, enqueue 1
          (⟨1, [], MessageKind.StatusUpdate, 2, 0, 100, DeliveryStatus.Pending, 0⟩ :: [])
          ⟨2, [], MessageKind.StatusUpdate, 5, 1, 100, DeliveryStatus.Pending, 0⟩ =
        Except.ok q2 ∧
        ∃ v ∈ (⟨1, [], MessageKind.StatusUpdate, 2, 0, 100, DeliveryStatus.Pending, 0⟩ ::
            ([] : List QueuedMessage)), evictableB v = true ∧
          (∀ u ∈ (⟨1, [], MessageKind.StatusUpdate, 2, 0, 100, DeliveryStatus.Pending, 0⟩ ::
              ([] : List QueuedMessage)), evictableB u = true →
            v.priority ≤ u.priority ∧
              (u.priority = v.priority → v.enqueuedAt ≤ u.enqueuedAt)) ∧
          q2.Perm
            (⟨2, [], MessageKind.StatusUpdate, 5, 1, 100, DeliveryStatus.Pending, 0⟩ ::
              (⟨1, [], MessageKind.StatusUpdate, 2, 0, 100, DeliveryStatus.Pending, 0⟩ ::
                  ([] : List QueuedMessage)).erase v)) :=
  ⟨⟨by decide,
      (C3_queuefull_only_degenerate 1
          (⟨1, [], MessageKind.StatusUpdate, 2, 0, 100, DeliveryStatus.Sent, 0⟩ :: [])
          ⟨2, [], MessageKind.StatusUpdate, 5, 1, 100, DeliveryStatus.Pending, 0⟩
          (by decide)).1.mpr (by decide)⟩,
    ⟨by decide,
      (C3_queuefull_only_degenerate 1
          (⟨1, [], MessageKind.StatusUpdate, 2, 0, 100, DeliveryStatus.Pending, 0⟩ :: [])
          ⟨2, [], MessageKind.StatusUpdate, 5, 1, 100, DeliveryStatus.Pending, 0⟩
          (by decide)).2
        ⟨⟨1, [], MessageKind.StatusUpdate, 2, 0, 100, DeliveryStatus.Pending, 0⟩,
          List.mem_cons_self _ _, by decide⟩⟩⟩

/-- C4: a message whose `expiresAt` is at or before `now` is never
returned by `dequeueNext`; `sweepExpired` keeps exactly the entries that
are not yet expired; and the worker's retry-timer handler transitions an
expired message to `Expired` instead of retrying it. -/
theorem C4_expired_never_delivered :
    (∀ now q m, dequeueNext now q = some m → now < m.expiresAt) ∧
    (∀ now q m, m ∈ sweepExpired now q ↔ m ∈ q ∧ now < m.expiresAt) ∧
    (∀ maxR now m, m.expiresAt ≤ now →
      retryOrExpire maxR now m =
        { m with deliveryStatus := DeliveryStatus.Expired }) := by
  refine ⟨?_, ?_, ?_⟩
  · intro now q m h
    have := (selectBest_mem _ _ h).2
    simp only [eligible, decide_eq_true_eq] at this
    exact this.2
  · intro now q m
    simp [sweepExpired]
  · intro maxR now m h
    unfold retryOrExpire
    rw [if_pos h]

/-- Witness for C4 at a concrete queue and time. -/
theorem C4_expired_never_delivered_witness :
    (0 < (⟨1, [], MessageKind.StatusUpdate, 2, 0, 100, DeliveryStatus.Pending,
        0⟩ : QueuedMessage).expiresAt) ∧
    ((⟨1, [], MessageKind.StatusUpdate, 2, 0, 100, DeliveryStatus.Pending,
          0⟩ : QueuedMessage) ∈
        sweepExpired 0 [⟨1, [], MessageKind.StatusUpdate, 2, 0, 100, DeliveryStatus.Pending, 0⟩]) ∧
    retryOrExpire 3 200 ⟨1, [], MessageKind.StatusUpdate, 2, 0, 100, DeliveryStatus.Pending, 0⟩ =
      { (⟨1, [], MessageKind.StatusUpdate, 2, 0, 100, DeliveryStatus.Pending,
          0⟩ : QueuedMessage) with deliveryStatus := DeliveryStatus.Expired } :=
  ⟨C4_expired_never_delivered.1 0
      [⟨1, [], MessageKind.StatusUpdate, 2, 0, 100, DeliveryStatus.Pending, 0⟩]
      ⟨1, [], MessageKind.StatusUpdate, 2, 0, 100, DeliveryStatus.Pending, 0⟩ rfl,
    (C4_expired_never_delivered.2.1 0
        [⟨1, [], MessageKind.StatusUpdate, 2, 0, 100, DeliveryStatus.Pending, 0⟩]
        ⟨1, [], MessageKind.StatusUpdate, 2, 0, 100, DeliveryStatus.Pending, 0⟩).mpr
      ⟨List.mem_cons_self _ _, by decide⟩,
    C4_expired_never_delivered.2.2 3 200
      ⟨1, [], MessageKind.StatusUpdate, 2, 0, 100, DeliveryStatus.Pending, 0⟩ (by decide)⟩

/-- C7: `dequeueNext` returns the highest-priority, oldest eligible
`Pending` message (none exactly when no eligible message exists), and the
worker's re-enqueue step preserves both `priority` and the original
`enqueuedAt`, so a re-enqueued message compares against untouched
equal-priority messages by its original `enqueuedAt`, not the re-send
time. -/
theorem C7_dequeue_priority_order :
    (∀ now q, dequeueNext now q = none ↔ ∀ m ∈ q, eligible now m = false) ∧
    (∀ now q m, dequeueNext now q = some m → m ∈ q ∧ eligible now m = true ∧
      ∀ u ∈ q, eligible now u = true →
        u.priority ≤ m.priority ∧
          (u.priority = m.priority → m.enqueuedAt ≤ u.enqueuedAt)) ∧
    (∀ maxR m, (onMissedAck maxR m).priority = m.priority ∧
      (onMissedAck maxR m).enqueuedAt = m.enqueuedAt ∧
      ∀ u, dequeueBetter (onMissedAck maxR m) u = dequeueBetter m u ∧
        dequeueBetter u (onMissedAck maxR m) = dequeueBetter u m) := by
  refine ⟨?_, ?_, ?_⟩
  · intro now q
    constructor
    · exact selectBest_none_forall _ _ q
    · exact selectBest_forall_none _ _ q
  · intro now q m h
    have hmem := selectBest_mem _ _ h
    refine ⟨hmem.1, hmem.2, ?_⟩
    intro u hu heu
    have hnb := selectBest_notBetter (eligible now) dequeueBetter
      dequeueBetter_irrefl dequeueBetter_asymm dequeueBetter_negtrans h u hu heu
    simp only [dequeueBetter, decide_eq_false_iff_not] at hnb
    omega
  · intro maxR m
    have hpr : (onMissedAck maxR m).priority = m.priority := by
      unfold onMissedAck
      by_cases h : maxR < m.retryCount + 1
      · rw [if_pos h]
      · rw [if_neg h]
    have henq : (onMissedAck maxR m).enqueuedAt = m.enqueuedAt := by
      unfold onMissedAck
      by_cases h : maxR < m.retryCount + 1
      · rw [if_pos h]
      · rw [if_neg h]
    refine ⟨hpr, henq, ?_⟩
    intro u
    constructor
    · unfold dequeueBetter
      rw [hpr, henq]
    · unfold dequeueBetter
      rw [hpr, henq]

/-- Witness for C7: two equal-priority pending messages; the older is
dequeued first. -/
theorem C7_dequeue_priority_order_witness :
    dequeueNext 0
        [⟨1, [], MessageKind.StatusUpdate, 3, 5, 100, DeliveryStatus.Pending, 0⟩,
          ⟨2, [], MessageKind.StatusUpdate, 3, 2, 100, DeliveryStatus.Pending, 0⟩] =
      some ⟨2, [], MessageKind.StatusUpdate, 3, 2, 100, DeliveryStatus.Pending, 0⟩ ∧
    ((⟨2, [], MessageKind.StatusUpdate, 3, 2, 100, DeliveryStatus.Pending,
        0⟩ : QueuedMessage) ∈
      [⟨1, [], MessageKind.StatusUpdate, 3, 5, 100, DeliveryStatus.Pending, 0⟩,
        ⟨2, [], MessageKind.StatusUpdate, 3, 2, 100, DeliveryStatus.Pending, 0⟩] ∧
      eligible 0 ⟨2, [], MessageKind.StatusUpdate, 3, 2, 100, DeliveryStatus.Pending, 0⟩ =
        true ∧
      ∀ u ∈ [⟨1, [], MessageKind.StatusUpdate, 3, 5, 100, DeliveryStatus.Pending, 0⟩,
          ⟨2, [], MessageKind.StatusUpdate, 3, 2, 100, DeliveryStatus.Pending, 0⟩],
        eligible 0 u = true →
          u.priority ≤
            (⟨2, [], MessageKind.StatusUpdate, 3, 2, 100, DeliveryStatus.Pending,
              0⟩ : QueuedMessage).priority ∧
          (u.priority =
              (⟨2, [], MessageKind.StatusUpdate, 3, 2, 100, DeliveryStatus.Pending,
                0⟩ : QueuedMessage).priority →
            (⟨2, [], MessageKind.StatusUpdate, 3, 2, 100, DeliveryStatus.Pending,
              0⟩ : QueuedMessage).enqueuedAt ≤ u.enqueuedAt)) :=
  ⟨rfl,
    C7_dequeue_priority_order.2.1 0
      [⟨1, [], MessageKind.StatusUpdate, 3, 5, 100, DeliveryStatus.Pending, 0⟩,
        ⟨2, [], MessageKind.StatusUpdate, 3, 2, 100, DeliveryStatus.Pending, 0⟩]
      ⟨2, [], MessageKind.StatusUpdate, 3, 2, 100, DeliveryStatus.Pending, 0⟩ rfl⟩

lemma retryOrExpire_not_expired (maxR now : Nat) (m : QueuedMessage)
    (h : now < m.expiresAt) : retryOrExpire maxR now m = onMissedAck maxR m := by
  unfold retryOrExpire
  rw [if_neg (by omega)]

lemma onMissedAck_under (maxR : Nat) (m : QueuedMessage)
    (h : m.retryCount + 1 ≤ maxR) :
    onMissedAck maxR m =
      { m with retryCount := m.retryCount + 1,
               deliveryStatus := DeliveryStatus.Pending } := by
  unfold onMissedAck
  rw [if_neg (by omega)]

lemma onMissedAck_over (maxR : Nat) (m : QueuedMessage)
    (h : maxR < m.retryCount + 1) :
    onMissedAck maxR m =
      { m with retryCount := m.retryCount + 1,
               deliveryStatus := DeliveryStatus.Failed } := by
  unfold onMissedAck
  rw [if_pos h]

lemma retryOrExpire_id_retry (maxR now : Nat) (m : QueuedMessage) :
    (retryOrExpire maxR now m).id = m.id ∧
      m.retryCount ≤ (retryOrExpire maxR now m).retryCount := by
  unfold retryOrExpire onMissedAck
  split_ifs <;> simp

/-- C5: `retryCount` never decreases across any queue operation; with
`MESSAGE_RETRY_ATTEMPTS = 3` a message that has been retried 3 times is
still not `Failed`, and the 4th missed acknowledgement marks it `Failed`;
a `Failed` message is never returned by `dequeueNext` and is left
untouched by the worker's missed-ack pass. -/
theorem C5_retry_monotone_capped :
    (∀ C op q m2, m2 ∈ applyOp C op q →
      (∃ m ∈ q, m.id = m2.id ∧ m.retryCount ≤ m2.retryCount) ∨
        ∃ mm, op = QueueOp.enq mm ∧ m2 = mm) ∧
    (∀ now m, now < m.expiresAt → m.retryCount = 0 →
      (retryOrExpire MESSAGE_RETRY_ATTEMPTS now
            (retryOrExpire MESSAGE_RETRY_ATTEMPTS now
              (retryOrExpire MESSAGE_RETRY_ATTEMPTS now m))).deliveryStatus ≠
          DeliveryStatus.Failed ∧
        (retryOrExpire MESSAGE_RETRY_ATTEMPTS now
            (retryOrExpire MESSAGE_RETRY_ATTEMPTS now
              (retryOrExpire MESSAGE_RETRY_ATTEMPTS now m))).retryCount = 3 ∧
        (retryOrExpire MESSAGE_RETRY_ATTEMPTS now
            (retryOrExpire MESSAGE_RETRY_ATTEMPTS now
              (retryOrExpire MESSAGE_RETRY_ATTEMPTS now
                (retryOrExpire MESSAGE_RETRY_ATTEMPTS now m)))).deliveryStatus =
          DeliveryStatus.Failed) ∧
    (∀ now q m, dequeueNext now q = some m →
      m.deliveryStatus = DeliveryStatus.Pending) ∧
    (∀ i maxR now (m : QueuedMessage), m.deliveryStatus = DeliveryStatus.Failed →
      (if m.id = i ∧ m.deliveryStatus = DeliveryStatus.Sent then
          retryOrExpire maxR now m
        else m) = m) := by
  refine ⟨?_, ?_, ?_, ?_⟩
  · intro C op q m2 h
    cases op with
    | enq mm =>
        simp only [applyOp, enqueueStep, enqueue] at h
        by_cases hlt : q.length < C
        · rw [if_pos hlt] at h
          dsimp only at h
          rcases mem_insertSorted.mp h with rfl | hq
          · exact Or.inr ⟨m2, rfl, rfl⟩
          · exact Or.inl ⟨m2, hq, rfl, le_refl _⟩
        · rw [if_neg hlt] at h
          cases hsel : selectEvict q with
          | none =>
              rw [hsel] at h
              dsimp only at h
              exact Or.inl ⟨m2, h, rfl, le_refl _⟩
          | some v =>
              rw [hsel] at h
              dsimp only at h
              rcases mem_insertSorted.mp h with rfl | hq
              · exact Or.inr ⟨m2, rfl, rfl⟩
              · exact Or.inl ⟨m2, List.mem_of_mem_erase hq, rfl, le_refl _⟩
    | sent i =>
        simp only [applyOp] at h
        rcases List.mem_map.mp h with ⟨m, hm, rfl⟩
        refine Or.inl ⟨m, hm, ?_, ?_⟩ <;> split_ifs <;> simp
    | ack i =>
        simp only [applyOp] at h
        exact Or.inl ⟨m2, (List.mem_filter.mp h).1, rfl, le_refl _⟩
    | fail i =>
        simp only [applyOp] at h
        rcases List.mem_map.mp h with ⟨m, hm, rfl⟩
        refine Or.inl ⟨m, hm, ?_, ?_⟩ <;> split_ifs <;> simp
    | missedAck i maxR now =>
        simp only [applyOp] at h
        rcases List.mem_map.mp h with ⟨m, hm, rfl⟩
        refine Or.inl ⟨m, hm, ?_, ?_⟩ <;> split_ifs with hc
        · exact (retryOrExpire_id_retry maxR now m).1.symm
        · rfl
        · exact (retryOrExpire_id_retry maxR now m).2
        · exact le_refl _
    | sweep now =>
        simp only [applyOp, sweepExpired] at h
        exact Or.inl ⟨m2, (List.mem_filter.mp h).1, rfl, le_refl _⟩
  · intro now m hnow hrc
    have k1 : retryOrExpire MESSAGE_RETRY_ATTEMPTS now m =
        { m with retryCount := m.retryCount + 1,
                 deliveryStatus := DeliveryStatus.Pending } := by
      rw [retryOrExpire_not_expired _ _ _ hnow]
      exact onMissedAck_under _ _ (by rw [hrc]; decide)
    have k2 : retryOrExpire MESSAGE_RETRY_ATTEMPTS now
        ({ m with retryCount := m.retryCount + 1,
                  deliveryStatus := DeliveryStatus.Pending }) =
        { m with retryCount := m.retryCount + 1 + 1,
                 deliveryStatus := DeliveryStatus.Pending } := by
      rw [retryOrExpire_not_expired _ _ _ (by dsimp only; omega)]
      exact onMissedAck_under _ _ (by dsimp only; rw [hrc]; decide)
    have k3 : retryOrExpire MESSAGE_RETRY_ATTEMPTS now
        ({ m with retryCount := m.retryCount + 1 + 1,
                  deliveryStatus := DeliveryStatus.Pending }) =
        { m with retryCount := m.retryCount + 1 + 1 + 1,
                 deliveryStatus := DeliveryStatus.Pending } := by
      rw [retryOrExpire_not_expired _ _ _ (by dsimp only; omega)]
      exact onMissedAck_under _ _ (by dsimp only; rw [hrc]; decide)
    have k4 : retryOrExpire MESSAGE_RETRY_ATTEMPTS now
        ({ m with retryCount := m.retryCount + 1 + 1 + 1,
                  deliveryStatus := DeliveryStatus.Pending }) =
        { m with retryCount := m.retryCount + 1 + 1 + 1 + 1,
                 deliveryStatus := DeliveryStatus.Failed } := by
      rw [retryOrExpire_not_expired _ _ _ (by dsimp only; omega)]
      exact onMissedAck_over _ _ (by dsimp only; rw [hrc]; decide)
    refine ⟨?_, ?_, ?_⟩
    · rw [k1, k2, k3]
      dsimp only
      decide
    · rw [k1, k2, k3]
      dsimp only
      omega
    · rw [k1, k2, k3, k4]
  · intro now q m h
    have := (selectBest_mem _ _ h).2
    simp only [eligible, decide_eq_true_eq] at this
    exact this.1
  · intro i maxR now m hf
    rw [if_neg]
    rw [hf]
    simp

/-- Witness for C5 at concrete messages, times and operations. -/
theorem C5_retry_monotone_capped_witness :
    ((⟨1, [], MessageKind.StatusUpdate, 2, 0, 100, DeliveryStatus.Pending,
        0⟩ : QueuedMessage) ∈
        applyOp 5 (QueueOp.sweep 0)
          [⟨1, [], MessageKind.StatusUpdate, 2, 0, 100, DeliveryStatus.Pending, 0⟩] ∧
      ((∃ m ∈ [(⟨1, [], MessageKind.StatusUpdate, 2, 0, 100, DeliveryStatus.Pending,
            0⟩ : QueuedMessage)],
          m.id =
              (⟨1, [], MessageKind.StatusUpdate, 2, 0, 100, DeliveryStatus.Pending,
                0⟩ : QueuedMessage).id ∧
            m.retryCount ≤
              (⟨1, [], MessageKind.StatusUpdate, 2, 0, 100, DeliveryStatus.Pending,
                0⟩ : QueuedMessage).retryCount) ∨
        ∃ mm, QueueOp.sweep 0 = QueueOp.enq mm ∧
          (⟨1, [], MessageKind.StatusUpdate, 2, 0, 100, DeliveryStatus.Pending,
            0⟩ : QueuedMessage) = mm)) ∧
    ((0 : Nat) < 100 ∧
      (retryOrExpire MESSAGE_RETRY_ATTEMPTS 0
            (retryOrExpire MESSAGE_RETRY_ATTEMPTS 0
              (retryOrExpire MESSAGE_RETRY_ATTEMPTS 0
                ⟨1, [], MessageKind.StatusUpdate, 2, 0, 100, DeliveryStatus.Pending,
                  0⟩))).deliveryStatus ≠ DeliveryStatus.Failed ∧
      (retryOrExpire MESSAGE_RETRY_ATTEMPTS 0
            (retryOrExpire MESSAGE_RETRY_ATTEMPTS 0
              (retryOrExpire MESSAGE_RETRY_ATTEMPTS 0
                (retryOrExpire MESSAGE_RETRY_ATTEMPTS 0
                  ⟨1, [], MessageKind.StatusUpdate, 2, 0, 100, DeliveryStatus.Pending,
                    0⟩)))).deliveryStatus = DeliveryStatus.Failed) ∧
    (⟨1, [], MessageKind.StatusUpdate, 2, 0, 100, DeliveryStatus.Pending,
        0⟩ : QueuedMessage).deliveryStatus = DeliveryStatus.Pending ∧
    (if (⟨1, [], MessageKind.StatusUpdate, 2, 0, 100, DeliveryStatus.Failed,
          0⟩ : QueuedMessage).id = 1 ∧
        (⟨1, [], MessageKind.StatusUpdate, 2, 0, 100, DeliveryStatus.Failed,
          0⟩ : QueuedMessage).deliveryStatus = DeliveryStatus.Sent then
      retryOrExpire 3 0 ⟨1, [], MessageKind.StatusUpdate, 2, 0, 100, DeliveryStatus.Failed, 0⟩
    else (⟨1, [], MessageKind.StatusUpdate, 2, 0, 100, DeliveryStatus.Failed,
        0⟩ : QueuedMessage)) =
      ⟨1, [], MessageKind.StatusUpdate, 2, 0, 100, DeliveryStatus.Failed, 0⟩ :=
  ⟨⟨by decide,
      C5_retry_monotone_capped.1 5 (QueueOp.sweep 0)
        [⟨1, [], MessageKind.StatusUpdate, 2, 0, 100, DeliveryStatus.Pending, 0⟩]
        ⟨1, [], MessageKind.StatusUpdate, 2, 0, 100, DeliveryStatus.Pending, 0⟩
        (by decide)⟩,
    ⟨by decide,
      (C5_retry_monotone_capped.2.1 0
          ⟨1, [], MessageKind.StatusUpdate, 2, 0, 100, DeliveryStatus.Pending, 0⟩
          (by decide) rfl).1,
      (C5_retry_monotone_capped.2.1 0
          ⟨1, [], MessageKind.StatusUpdate, 2, 0, 100, DeliveryStatus.Pending, 0⟩
          (by decide) rfl).2.2⟩,
    C5_retry_monotone_capped.2.2.1 0
      [⟨1, [], MessageKind.StatusUpdate, 2, 0, 100, DeliveryStatus.Pending, 0⟩]
      ⟨1, [], MessageKind.StatusUpdate, 2, 0, 100, DeliveryStatus.Pending, 0⟩ rfl,
    C5_retry_monotone_capped.2.2.2 1 3 0
      ⟨1, [], MessageKind.StatusUpdate, 2, 0, 100, DeliveryStatus.Failed, 0⟩ rfl⟩

/-- C1 counterexample: with the configured constants and the blended
reconnect cadence (2000 ms for the first 20000 ms, then 5000 ms), a grace
session started at t = 0 with the beacon never re-observed resolves to
`Absent` at t = 30000, not t = 60000: the attempt-count bound
(12 attempts by t = 30000) fires strictly before the grace-period
bound. -/
theorem C1_counterexample :
    graceAbsentTime 0 = 30000 ∧
    graceAbsentTime 0 ≠ 60000 ∧
    attemptTime 0 BLE_RECONNECT_MAX_ATTEMPTS < 0 + BLE_GRACE_PERIOD_MS := by
  decide

/-- C1 (amended): the session resolves to `Absent` at the earlier of the
grace-period bound and the attempt-count bound; under the scenario
constants (`GracePeriod = 60000`, fast cadence 2000 ms for 20000 ms then
5000 ms, `MaxReconnectAttempts = 12`) the 10 fast attempts end at
t = 20000, the 12th attempt lands at t = 30000, and the machine goes
`Absent` at t = 30000 — the attempt-count bound fires first. -/
theorem C1_attempt_bound_fires_first :
    (∀ g : Nat, graceAbsentTime g ≤ g + BLE_GRACE_PERIOD_MS ∧
      graceAbsentTime g ≤ attemptTime g BLE_RECONNECT_MAX_ATTEMPTS ∧
      (graceAbsentTime g = g + BLE_GRACE_PERIOD_MS ∨
        graceAbsentTime g = attemptTime g BLE_RECONNECT_MAX_ATTEMPTS)) ∧
    attemptTime 0 10 = 20000 ∧
    attemptTime 0 11 = 25000 ∧
    attemptTime 0 BLE_RECONNECT_MAX_ATTEMPTS = 30000 ∧
    attemptTime 0 BLE_RECONNECT_MAX_ATTEMPTS < BLE_GRACE_PERIOD_MS ∧
    graceAbsentTime 0 = attemptTime 0 BLE_RECONNECT_MAX_ATTEMPTS := by
  refine ⟨fun g => ⟨min_le_left _ _, min_le_right _ _, ?_⟩, by decide, by decide,
    by decide, by decide, by decide⟩
  rcases le_total (g + BLE_GRACE_PERIOD_MS) (attemptTime g BLE_RECONNECT_MAX_ATTEMPTS)
    with h | h
  · exact Or.inl (min_eq_left h)
  · exact Or.inr (min_eq_right h)

/-- C6 counterexample: a chronological sighting trace whose gaps are all
below `GracePeriod = 60000` and whose reconnect-attempt count stays far
under `MaxReconnectAttempts = 12`, yet the machine transitions to
`Absent` (and publishes it) because the section 4.1 safety net fires at
`AbsenceConfirmTime = 15000`. -/
theorem C6_counterexample :
    chronFrom 0 cexEvents = true ∧
    gapsWithin BLE_GRACE_PERIOD_MS none cexEvents = true ∧
    missRunsBelow BLE_RECONNECT_MAX_ATTEMPTS 0 cexEvents = true ∧
    (runPresence configPresenceParams initPresence cexEvents).1.status =
      PresenceStatus.Absent ∧
    PresenceStatus.Absent ∈ (runPresence configPresenceParams initPresence cexEvents).2 := by
  decide

lemma presenceStep_pub (p : PresenceParams) (s : PresenceState) (t : Nat) (b : Bool)
    (x : PresenceStatus) (h : (presenceStep p s t b).2 = some x) :
    x = (presenceStep p s t b).1.status ∧
      (presenceStep p s t b).1.status ≠ s.status ∧
      (x = PresenceStatus.Present ∨ x = PresenceStatus.Absent) := by
  obtain ⟨st, ss, ls, gs, ac⟩ := s
  cases st <;> cases b <;>
    dsimp only [presenceStep] at h ⊢ <;>
    first
      | (cases h)
      | (split_ifs at h ⊢ ; (cases h; simp_all))

lemma runPresence_pubs (p : PresenceParams) :
    ∀ (evs : List (Nat × Bool)) (s : PresenceState) (x : PresenceStatus),
      x ∈ (runPresence p s evs).2 →
      x = PresenceStatus.Present ∨ x = PresenceStatus.Absent := by
  intro evs
  induction evs with
  | nil =>
      intro s x h
      simp [runPresence] at h
  | cons ev evs ih =>
      obtain ⟨t, b⟩ := ev
      intro s x h
      simp only [runPresence, List.mem_append] at h
      rcases h with h | h
      · cases hp : (presenceStep p s t b).2 with
        | none => rw [hp] at h; cases h
        | some y =>
            rw [hp] at h
            simp only [Option.toList, List.mem_singleton] at h
            subst h
            exact (presenceStep_pub p s t b x hp).2.2
      · exact ih _ x h

lemma presence_no_absent (p : PresenceParams) :
    ∀ (evs : List (Nat × Bool)) (L : Option Nat) (prev run : Nat) (s : PresenceState),
      chronFrom prev evs = true →
      gapsWithin (min p.gracePeriod p.absenceConfirmTime) L evs = true →
      missRunsBelow p.maxReconnectAttempts run evs = true →
      s.status ≠ PresenceStatus.Absent →
      (∀ l, L = some l → s.lastSeen = l ∧ l ≤ prev) →
      (L = none → s.status = PresenceStatus.Searching) →
      (s.status = PresenceStatus.Grace →
        s.lastSeen ≤ s.graceStart ∧ s.attemptCount + 1 ≤ run) →
      (runPresence p s evs).1.status ≠ PresenceStatus.Absent ∧
        PresenceStatus.Absent ∉ (runPresence p s evs).2 := by
  intro evs
  induction evs with
  | nil =>
      intro L prev run s _ _ _ hne _ _ _
      exact ⟨hne, by simp [runPresence]⟩
  | cons ev evs ih =>
      obtain ⟨t, b⟩ := ev
      intro L prev run s hchron hgap hmiss hne hsome hnone hgrace
      obtain ⟨st, ss, ls, gs, ac⟩ := s
      simp only [chronFrom, Bool.and_eq_true, decide_eq_true_eq] at hchron
      obtain ⟨hpt, hchron⟩ := hchron
      simp only [runPresence]
      cases st with
      | Absent => exact absurd rfl hne
      | Searching =>
          cases b with
          | true =>
              have hmiss2 : missRunsBelow p.maxReconnectAttempts 0 evs = true := by
                simpa [missRunsBelow] using hmiss
              have hgap2 : gapsWithin (min p.gracePeriod p.absenceConfirmTime)
                  (some t) evs = true := by
                cases L with
                | none => simpa [gapsWithin] using hgap
                | some l =>
                    simp only [gapsWithin, Bool.and_eq_true] at hgap
                    simpa using hgap.2
              dsimp only [presenceStep]
              by_cases hconf : p.presenceConfirmTime ≤ t - ss.getD t
              · rw [if_pos hconf]
                have hih := ih (some t) t 0
                  ⟨PresenceStatus.Present, none, t, gs, ac⟩
                  hchron hgap2 hmiss2 (by intro hcontra; cases hcontra)
                  (fun l hl => by cases hl; exact ⟨rfl, le_refl t⟩)
                  (fun hl => by cases hl)
                  (fun hl => by cases hl)
                exact ⟨hih.1, by simp [hih.2]⟩
              · rw [if_neg hconf]
                have hih := ih (some t) t 0
                  ⟨PresenceStatus.Searching, some (ss.getD t), t, gs, ac⟩
                  hchron hgap2 hmiss2 (by intro hcontra; cases hcontra)
                  (fun l hl => by cases hl; exact ⟨rfl, le_refl t⟩)
                  (fun hl => by cases hl)
                  (fun hl => by cases hl)
                exact ⟨hih.1, by simp [hih.2]⟩
          | false =>
              simp only [missRunsBelow, if_neg (by decide : ¬(false = true)),
                Bool.and_eq_true, decide_eq_true_eq] at hmiss
              obtain ⟨hrun, hmiss⟩ := hmiss
              dsimp only [presenceStep]
              cases L with
              | none =>
                  have hgap2 : gapsWithin (min p.gracePeriod p.absenceConfirmTime)
                      none evs = true := by
                    simpa [gapsWithin] using hgap
                  have hih := ih none t (run + 1)
                    ⟨PresenceStatus.Searching, none, ls, gs, ac⟩
                    hchron hgap2 hmiss (by intro hcontra; cases hcontra)
                    (fun l hl => by cases hl)
                    (fun _ => rfl)
                    (fun hl => by cases hl)
                  exact ⟨hih.1, by simp [hih.2]⟩
              | some l =>
                  simp only [gapsWithin, Bool.and_eq_true, decide_eq_true_eq] at hgap
                  obtain ⟨hgapd, hgap⟩ := hgap
                  have hgap2 : gapsWithin (min p.gracePeriod p.absenceConfirmTime)
                      (some l) evs = true := by simpa using hgap
                  have hls : ls = l := (hsome l rfl).1
                  have hlp : l ≤ prev := (hsome l rfl).2
                  have hih := ih (some l) t (run + 1)
                    ⟨PresenceStatus.Searching, none, ls, gs, ac⟩
                    hchron hgap2 hmiss (by intro hcontra; cases hcontra)
                    (fun l2 hl2 => by cases hl2; exact ⟨hls, by omega⟩)
                    (fun hl => by cases hl)
                    (fun hl => by cases hl)
                  exact ⟨hih.1, by simp [hih.2]⟩
      | Present =>
          cases b with
          | true =>
              have hmiss2 : missRunsBelow p.maxReconnectAttempts 0 evs = true := by
                simpa [missRunsBelow] using hmiss
              have hgap2 : gapsWithin (min p.gracePeriod p.absenceConfirmTime)
                  (some t) evs = true := by
                cases L with
                | none => simpa [gapsWithin] using hgap
                | some l =>
                    simp only [gapsWithin, Bool.and_eq_true] at hgap
                    simpa using hgap.2
              dsimp only [presenceStep]
              have hih := ih (some t) t 0
                ⟨PresenceStatus.Present, none, t, gs, ac⟩
                hchron hgap2 hmiss2 (by intro hcontra; cases hcontra)
                (fun l hl => by cases hl; exact ⟨rfl, le_refl t⟩)
                (fun hl => by cases hl)
                (fun hl => by cases hl)
              exact ⟨hih.1, by simp [hih.2]⟩
          | false =>
              cases L with
              | none => exact absurd (hnone rfl) (by intro hcontra; cases hcontra)
              | some l =>
                  simp only [missRunsBelow, if_neg (by decide : ¬(false = true)),
                    Bool.and_eq_true, decide_eq_true_eq] at hmiss
                  obtain ⟨hrun, hmiss⟩ := hmiss
                  simp only [gapsWithin, Bool.and_eq_true, decide_eq_true_eq] at hgap
                  obtain ⟨hgapd, hgap⟩ := hgap
                  have hgap2 : gapsWithin (min p.gracePeriod p.absenceConfirmTime)
                      (some l) evs = true := by simpa using hgap
                  have hls : ls = l := (hsome l rfl).1
                  have hlp : l ≤ prev := (hsome l rfl).2
                  have hminr := min_le_right p.gracePeriod p.absenceConfirmTime
                  dsimp only [presenceStep]
                  rw [if_neg (by omega : ¬ p.absenceConfirmTime ≤ t - ls)]
                  have hih := ih (some l) t (run + 1)
                    ⟨PresenceStatus.Grace, none, ls, t, 0⟩
                    hchron hgap2 hmiss (by intro hcontra; cases hcontra)
                    (fun l2 hl2 => by cases hl2; exact ⟨hls, by omega⟩)
                    (fun hl => by cases hl)
                    (fun _ => ⟨by dsimp only; omega, by dsimp only; omega⟩)
                  exact ⟨hih.1, by simp [hih.2]⟩
      | Grace =>
          cases b with
          | true =>
              have hmiss2 : missRunsBelow p.maxReconnectAttempts 0 evs = true := by
                simpa [missRunsBelow] using hmiss
              have hgap2 : gapsWithin (min p.gracePeriod p.absenceConfirmTime)
                  (some t) evs = true := by
                cases L with
                | none => simpa [gapsWithin] using hgap
                | some l =>
                    simp only [gapsWithin, Bool.and_eq_true] at hgap
                    simpa using hgap.2
              dsimp only [presenceStep]
              have hih := ih (some t) t 0
                ⟨PresenceStatus.Present, ss, t, gs, ac⟩
                hchron hgap2 hmiss2 (by intro hcontra; cases hcontra)
                (fun l hl => by cases hl; exact ⟨rfl, le_refl t⟩)
                (fun hl => by cases hl)
                (fun hl => by cases hl)
              exact ⟨hih.1, by simp [hih.2]⟩
          | false =>
              cases L with
              | none => exact absurd (hnone rfl) (by intro hcontra; cases hcontra)
              | some l =>
                  simp only [missRunsBelow, if_neg (by decide : ¬(false = true)),
                    Bool.and_eq_true, decide_eq_true_eq] at hmiss
                  obtain ⟨hrun, hmiss⟩ := hmiss
                  simp only [gapsWithin, Bool.and_eq_true, decide_eq_true_eq] at hgap
                  obtain ⟨hgapd, hgap⟩ := hgap
                  have hgap2 : gapsWithin (min p.gracePeriod p.absenceConfirmTime)
                      (some l) evs = true := by simpa using hgap
                  have hls : ls = l := (hsome l rfl).1
                  have hlp : l ≤ prev := (hsome l rfl).2
                  have hgg := hgrace rfl
                  have hlsgs : ls ≤ gs := hgg.1
                  have hacr : ac + 1 ≤ run := hgg.2
                  have hminr := min_le_right p.gracePeriod p.absenceConfirmTime
                  have hminl := min_le_left p.gracePeriod p.absenceConfirmTime
                  dsimp only [presenceStep]
                  rw [if_neg (by omega :
                    ¬(p.absenceConfirmTime ≤ t - ls ∨ p.gracePeriod < t - gs ∨
                      p.maxReconnectAttempts ≤ ac + 1))]
                  have hih := ih (some l) t (run + 1)
                    ⟨PresenceStatus.Grace, ss, ls, gs, ac + 1⟩
                    hchron hgap2 hmiss (by intro hcontra; cases hcontra)
                    (fun l2 hl2 => by cases hl2; exact ⟨hls, by omega⟩)
                    (fun hl => by cases hl)
                    (fun _ => ⟨hlsgs, by dsimp only; omega⟩)
                  exact ⟨hih.1, by simp [hih.2]⟩

/-- C6 (amended): StatusPublisher fires only on transitions that enter
`Present` or `Absent` (a `Grace` or `Searching` status is never
published); and for chronological sighting sequences whose gaps all stay
below both `GracePeriod` and `AbsenceConfirmTime` (the section 4.1 safety
net, which the original claim ignored) with consecutive-miss runs under
`MaxReconnectAttempts`, the machine never transitions to `Absent` and
never publishes `Absent`. -/
theorem C6_visible_transitions_only :
    (∀ p s t b x, (presenceStep p s t b).2 = some x →
      x = (presenceStep p s t b).1.status ∧
        (presenceStep p s t b).1.status ≠ s.status ∧
        (x = PresenceStatus.Present ∨ x = PresenceStatus.Absent)) ∧
    (∀ p evs x, x ∈ (runPresence p initPresence evs).2 →
      x = PresenceStatus.Present ∨ x = PresenceStatus.Absent) ∧
    (∀ p evs, chronFrom 0 evs = true →
      gapsWithin (min p.gracePeriod p.absenceConfirmTime) none evs = true →
      missRunsBelow p.maxReconnectAttempts 0 evs = true →
      (runPresence p initPresence evs).1.status ≠ PresenceStatus.Absent ∧
        PresenceStatus.Absent ∉ (runPresence p initPresence evs).2) := by
  refine ⟨presenceStep_pub, fun p evs x h => runPresence_pubs p evs _ x h, ?_⟩
  intro p evs hchron hgap hmiss
  exact presence_no_absent p evs none 0 0 initPresence hchron hgap hmiss
    (by decide) (fun l hl => by cases hl) (fun _ => rfl)
    (by intro hcontra; cases hcontra)

/-- Witness for C6 (amended) at a concrete confirming step and trace. -/
theorem C6_visible_transitions_only_witness :
    (PresenceStatus.Present =
        (presenceStep configPresenceParams
            ⟨PresenceStatus.Searching, some 0, 0, 0, 0⟩ 6000 true).1.status ∧
      (presenceStep configPresenceParams
          ⟨PresenceStatus.Searching, some 0, 0, 0, 0⟩ 6000 true).1.status ≠
        (⟨PresenceStatus.Searching, some 0, 0, 0, 0⟩ : PresenceState).status ∧
      (PresenceStatus.Present = PresenceStatus.Present ∨
        PresenceStatus.Present = PresenceStatus.Absent)) ∧
    (PresenceStatus.Present = PresenceStatus.Present ∨
      PresenceStatus.Present = PresenceStatus.Absent) ∧
    ((runPresence configPresenceParams initPresence goodEvents).1.status ≠
        PresenceStatus.Absent ∧
      PresenceStatus.Absent ∉
        (runPresence configPresenceParams initPresence goodEvents).2) :=
  ⟨C6_visible_transitions_only.1 configPresenceParams
      ⟨PresenceStatus.Searching, some 0, 0, 0, 0⟩ 6000 true PresenceStatus.Present rfl,
    C6_visible_transitions_only.2.1 configPresenceParams goodEvents
      PresenceStatus.Present (by decide),
    C6_visible_transitions_only.2.2 configPresenceParams goodEvents
      (by decide) (by decide) (by decide)⟩

end ConsultEase
